import Mathlib

/-!
Verification of the fault-handling subsystem of `src/firmware/libmaple/util.c`
(onyxfirmware).  The file embeds the C code shallowly: each function of
`util.c` is rendered as the finite sequence of peripheral-driver operations it
performs (`List Op`), together with a state semantics `applyOp` describing the
effect of each driver operation on an abstract peripheral state, and the
indicator fade loop `throb` is rendered as a step function on its local state.
The peripheral drivers themselves (usart.c, nvic.c, gpio.c, timer.c, adc.c and
the board headers) are not part of the source tree here; their semantics and
the numeric constants they export are modelled from the specification, which
treats them as opaque capabilities.
-/

namespace OnyxUtil

/-- Modelled from the spec: identifier of the serial channel preset USART1
(board headers are outside the source tree; the value is an abstract id). -/
def USART1 : Nat := 1

/-- Modelled from the spec: identifier of GPIO port A (abstract id). -/
def GPIOA : Nat := 0

/-- Modelled from the spec: the clock source STM32_PCLK2 used by the
BOARD_safecast serial preset (abstract id for the clock source). -/
def STM32_PCLK2 : Nat := 2

/-- Configured error serial channel: the BOARD_safecast branch of util.c
selects USART1. -/
def ERROR_USART : Nat := USART1

/-- Clock source of the error serial channel (BOARD_safecast branch). -/
def ERROR_USART_CLK_SPEED : Nat := STM32_PCLK2

/-- Baud rate of the error serial channel (BOARD_safecast branch). -/
def ERROR_USART_BAUD : Nat := 115200

/-- Port of the error transmit pin (BOARD_safecast branch). -/
def ERROR_TX_PORT : Nat := GPIOA

/-- Pin number of the error transmit pin (BOARD_safecast branch). -/
def ERROR_TX_PIN : Nat := 7

/-- Modelled from the spec: gpio.h pin-mode code for plain push-pull output
(abstract id, distinct from the alternate-function code). -/
def GPIO_OUTPUT_PP : Nat := 1

/-- Modelled from the spec: gpio.h pin-mode code for alternate-function
push-pull output (abstract id). -/
def GPIO_AF_OUTPUT_PP : Nat := 2

/-- Modelled from the spec: nvic.h interrupt-line number of the USB
high-priority line NVIC_USB_HP_CAN_TX (line 19 on STM32F1). -/
def NVIC_USB_HP_CAN_TX : Nat := 19

/-- Modelled from the spec: nvic.h interrupt-line number of the USB
low-priority line NVIC_USB_LP_CAN_RX0 (line 20 on STM32F1). -/
def NVIC_USB_LP_CAN_RX0 : Nat := 20

/-- Peripheral-driver operations performed by util.c, in the order the code
issues them.  Each constructor corresponds to one driver entry point named in
the C source. -/
inductive Op where
  | gpioSetMode (port : Nat) (pin : Nat) (mode : Nat)
  | usartInit (ch : Nat)
  | usartSetBaudRate (ch : Nat) (clk : Nat) (baud : Nat)
  | usartPutc (ch : Nat) (c : Char)
  | nvicIrqDisableAll
  | timerDisableAll
  | adcDisableAll
  | usartDisableAll
  | nvicIrqEnable (line : Nat)
  | nvicGlobalIrqEnable
deriving DecidableEq

/-- Decimal digit character for a value 0..9. -/
def digitChar (d : Nat) : Char := Char.ofNat (48 + d)

/-- Modelled from the spec: accumulator loop of the unsigned-decimal writer
(write-decimal capability; `usart_putudec` itself is outside the source tree).
The first argument is structural fuel, always called with enough fuel to
cover every digit. -/
def udecAux : Nat → Nat → List Char → List Char
  | 0, _, acc => acc
  | fuel + 1, n, acc =>
    if n < 10 then digitChar n :: acc
    else udecAux fuel (n / 10) (digitChar (n % 10) :: acc)

/-- Modelled from the spec: the character sequence transmitted by the
unsigned-decimal writer for a value `n` (most significant digit first, no
leading zeros). -/
def udecChars (n : Nat) : List Char := udecAux (n + 1) n []

/-- Trace of `usart_putc`: transmit one character on a channel. -/
def usart_putc (ch : Nat) (c : Char) : List Op := [Op.usartPutc ch c]

/-- Modelled from the spec: trace of `usart_putstr`, which transmits a string
character by character on a channel. -/
def usart_putstr (ch : Nat) (s : String) : List Op :=
  s.data.map (Op.usartPutc ch)

/-- Modelled from the spec: trace of `usart_putudec`, which transmits the
unsigned decimal rendering of a value on a channel. -/
def usart_putudec (ch : Nat) (n : Nat) : List Op :=
  (udecChars n).map (Op.usartPutc ch)

/-- Trace of `_enable_error_usart` (util.c): set the transmit pin to
alternate-function push-pull, initialise the error channel, set its baud rate
from the build-time clock source and baud constants. -/
def _enable_error_usart : List Op :=
  [Op.gpioSetMode ERROR_TX_PORT ERROR_TX_PIN GPIO_AF_OUTPUT_PP,
   Op.usartInit ERROR_USART,
   Op.usartSetBaudRate ERROR_USART ERROR_USART_CLK_SPEED ERROR_USART_BAUD]

/-- Trace of `__error` (util.c) up to the point where it enters the
non-returning indicator loop `throb`: disable all interrupt sources, all
timers, all ADCs, all serial peripherals, re-enable the two USB lines, then
re-enable global interrupts. -/
def __error : List Op :=
  [Op.nvicIrqDisableAll,
   Op.timerDisableAll,
   Op.adcDisableAll,
   Op.usartDisableAll,
   Op.nvicIrqEnable NVIC_USB_HP_CAN_TX,
   Op.nvicIrqEnable NVIC_USB_LP_CAN_RX0,
   Op.nvicGlobalIrqEnable]

/-- Trace of `_fail` (util.c) up to entering the indicator loop: enable the
error channel, print the failed-assert message piecewise, then quiesce.  The
C `int line` is handed to the unsigned-decimal writer; it is modelled here by
the unsigned value the writer receives. -/
def _fail (file : String) (line : Nat) (exp : String) : List Op :=
  _enable_error_usart ++
  usart_putstr ERROR_USART "ERROR: FAILED ASSERT(" ++
  usart_putstr ERROR_USART exp ++
  usart_putstr ERROR_USART "): " ++
  usart_putstr ERROR_USART file ++
  usart_putstr ERROR_USART ": " ++
  usart_putudec ERROR_USART line ++
  usart_putc ERROR_USART '\n' ++
  usart_putc ERROR_USART '\r' ++
  __error

/-- Trace of `__assert_func` (util.c): forwards file, line and expression to
`_fail`, dropping the `method` argument. -/
def __assert_func (file : String) (line : Nat) (method : String)
    (expression : String) : List Op :=
  _fail file line expression

/-- Trace of `abort` (util.c) up to entering the indicator loop: enable the
error channel, print the abort message, then quiesce. -/
def abort : List Op :=
  _enable_error_usart ++
  usart_putstr ERROR_USART "ERROR: PROGRAM ABORTED VIA abort()\n\r" ++
  __error

/-- Select the character an operation transmits on the configured error
serial channel, if any. -/
def pickErr : Op → Option Char
  | Op.usartPutc ch c => if ch = ERROR_USART then some c else none
  | _ => none

/-- Characters transmitted on the configured error serial channel by a trace,
in order, collected into a string. -/
def serialOut (t : List Op) : String :=
  String.mk (t.filterMap pickErr)

/-- Abstract state of the peripherals visible to util.c: which interrupt
lines, timers, ADCs and serial channels are enabled, whether global
interrupts are on, per-channel serial configuration, pin modes, and the log
of transmitted characters. -/
@[ext] structure PeriphState where
  irqEnabled : Nat → Bool
  globalIrq : Bool
  timerEnabled : Nat → Bool
  adcEnabled : Nat → Bool
  usartEnabled : Nat → Bool
  usartInited : Nat → Bool
  usartBaud : Nat → Option (Nat × Nat)
  gpioMode : Nat → Nat → Nat
  txLog : List (Nat × Char)

/-- Modelled from the spec: effect of one driver operation on the abstract
peripheral state (disable-all clears a whole class, enable-by-id sets one
line, init/configure record per-channel serial state, set-pin-mode records
the mode, write-character appends to the transmit log). -/
def applyOp (s : PeriphState) : Op → PeriphState
  | Op.gpioSetMode port pin mode =>
      { s with gpioMode := fun p q => if p = port ∧ q = pin then mode else s.gpioMode p q }
  | Op.usartInit ch =>
      { s with usartInited := fun c => if c = ch then true else s.usartInited c,
               usartEnabled := fun c => if c = ch then true else s.usartEnabled c }
  | Op.usartSetBaudRate ch clk baud =>
      { s with usartBaud := fun c => if c = ch then some (clk, baud) else s.usartBaud c }
  | Op.usartPutc ch c =>
      { s with txLog := s.txLog ++ [(ch, c)] }
  | Op.nvicIrqDisableAll =>
      { s with irqEnabled := fun _ => false }
  | Op.timerDisableAll =>
      { s with timerEnabled := fun _ => false }
  | Op.adcDisableAll =>
      { s with adcEnabled := fun _ => false }
  | Op.usartDisableAll =>
      { s with usartEnabled := fun _ => false }
  | Op.nvicIrqEnable line =>
      { s with irqEnabled := fun l => if l = line then true else s.irqEnabled l }
  | Op.nvicGlobalIrqEnable =>
      { s with globalIrq := true }

/-- Run a trace of driver operations on a peripheral state. -/
def applyOps (s : PeriphState) (ops : List Op) : PeriphState :=
  ops.foldl applyOp s

/-- Addition of a signed slope to an unsigned 32-bit counter, with the C
wrap-around semantics of `uint32 CC; CC += slope;` where `slope` is a signed
value. -/
def wrapAdd (a : Nat) (d : Int) : Nat :=
  (((a : Int) + d) % (4294967296 : Int)).toNat

/-- Ceiling of the indicator waveform, `TOP_CNT = 0x200` in throb. -/
def TOP_CNT : Nat := 512

/-- Local state of the indicator fade loop `throb` (build with an error LED):
the signed slope, the duty-cycle amplitude `CC` and the sub-counter `i`. -/
@[ext] structure ThrobState where
  slope : Int
  cc : Nat
  i : Nat
deriving DecidableEq

/-- One iteration of the `while (1)` body of `throb` (util.c): flip the slope
at the amplitude boundaries, advance the amplitude and reset the sub-counter
when the sub-counter reaches the ceiling, then increment the sub-counter
(32-bit, hence mod 2^32).  The LED level written during the iteration is
`i < CC` with the updated values, which does not feed back into the state. -/
def throbStep (s : ThrobState) : ThrobState :=
  let slope : Int := if s.cc = TOP_CNT then -1 else if s.cc = 0 then 1 else s.slope
  let cc : Nat := if s.i = TOP_CNT then wrapAdd s.cc slope else s.cc
  let i0 : Nat := if s.i = TOP_CNT then 0 else s.i
  { slope := slope, cc := cc, i := (i0 + 1) % 4294967296 }

/-- Initial state of the fade loop: `slope = 1`, `CC = 0`, `i = 0`. -/
def throbInit : ThrobState := { slope := 1, cc := 0, i := 0 }

/-- State of the fade loop after `n` iterations from the initial state. -/
def throbIter (n : Nat) : ThrobState := throbStep^[n] throbInit

/-- Loop guard of `throb` in the error-LED build: the C code loops on
`while (1)`, so the guard is constantly true and independent of the state. -/
def throbGuard (s : ThrobState) : Bool := true

/-- State of the `throb` loop in the build without an error LED: the loop
body is empty, so there is no state. -/
def throbNoLedState : Type := Unit

/-- Step of the empty `while (1) ;` loop of the no-LED build. -/
def throbNoLedStep (s : throbNoLedState) : throbNoLedState := s

/-- Loop guard of `throb` in the no-LED build, again constantly true. -/
def throbNoLedGuard (s : throbNoLedState) : Bool := true

/-- A guarded loop halts from `s0` iff its guard becomes false after finitely
many steps.  `throb` never returns because neither of its builds ever makes
its guard false. -/
def loopHalts {σ : Type} (guard : σ → Bool) (step : σ → σ) (s0 : σ) : Prop :=
  ∃ n : Nat, guard (step^[n] s0) = false

/-- One step of reading a decimal numeral left to right. -/
def decStep (a : Nat) (c : Char) : Nat := 10 * a + (c.toNat - 48)

/-- Value denoted by a list of decimal digit characters (used to state that
the unsigned-decimal writer really renders its argument). -/
def decodeDec (l : List Char) : Nat := l.foldl decStep 0

/-- Invariant of the indicator fade loop: the amplitude and the sub-counter
stay within the ceiling and the slope is one of the two unit slopes. -/
def ThrobInv (s : ThrobState) : Prop :=
  s.cc ≤ TOP_CNT ∧ s.i ≤ TOP_CNT ∧ (s.slope = 1 ∨ s.slope = -1)

/-- Digit characters have the expected code points. -/
lemma digitChar_toNat (d : Nat) (h : d < 10) : (digitChar d).toNat = 48 + d := by
  interval_cases d <;> decide

/-- Leading digits 1..9 are not the character 0. -/
lemma digitChar_ne_zero_char (d : Nat) (h1 : 1 ≤ d) (h2 : d < 10) : digitChar d ≠ '0' := by
  interval_cases d <;> decide

/-- The decimal writer never emits a leading zero for a positive value. -/
lemma udecAux_head (fuel : Nat) :
    ∀ n acc, 1 ≤ n → n < 10 ^ fuel → (udecAux fuel n acc).head? ≠ some '0' := by
  induction fuel with
  | zero => intro n acc h1 h2; simp at h2; omega
  | succ fuel ih =>
    intro n acc h1 h2
    rw [udecAux]
    by_cases h : n < 10
    · rw [if_pos h]
      simp only [List.head?_cons]
      intro hc
      exact digitChar_ne_zero_char n h1 h (Option.some.inj hc)
    · rw [if_neg h]
      apply ih
      · omega
      · have h10 : n < 10 ^ fuel * 10 := by rw [← pow_succ]; exact h2
        omega

/-- Any natural is below the power of ten used as fuel for its rendering. -/
lemma lt_ten_pow_succ (n : Nat) : n < 10 ^ (n + 1) :=
  calc n < 10 ^ n := Nat.lt_pow_self (by norm_num) n
    _ ≤ 10 ^ (n + 1) := Nat.pow_le_pow_right (by norm_num) (by omega)

/-- The rendering of a positive value does not start with the character 0. -/
lemma udecChars_head (n : Nat) (h : 1 ≤ n) : (udecChars n).head? ≠ some '0' :=
  udecAux_head (n + 1) n [] h (lt_ten_pow_succ n)

/-- Reading back the digits produced by the decimal writer recovers the
accumulated value. -/
lemma udecAux_foldl (fuel : Nat) :
    ∀ n acc, 1 ≤ n → n < 10 ^ fuel →
      ∃ k, 0 < k ∧ ∀ v, List.foldl decStep v (udecAux fuel n acc) =
        List.foldl decStep (v * 10 ^ k + n) acc := by
  induction fuel with
  | zero => intro n acc h1 h2; simp at h2; omega
  | succ fuel ih =>
    intro n acc h1 h2
    rw [udecAux]
    by_cases h : n < 10
    · rw [if_pos h]
      refine ⟨1, by omega, fun v => ?_⟩
      rw [List.foldl_cons]
      congr 1
      rw [decStep, digitChar_toNat n h]
      ring_nf
      omega
    · rw [if_neg h]
      have hdiv1 : 1 ≤ n / 10 := by omega
      have hdiv2 : n / 10 < 10 ^ fuel := by
        have h10 : n < 10 ^ fuel * 10 := by rw [← pow_succ]; exact h2
        omega
      obtain ⟨k, hk, hf⟩ := ih (n / 10) (digitChar (n % 10) :: acc) hdiv1 hdiv2
      refine ⟨k + 1, by omega, fun v => ?_⟩
      rw [hf v, List.foldl_cons]
      congr 1
      rw [decStep, digitChar_toNat (n % 10) (by omega)]
      calc 10 * (v * 10 ^ k + n / 10) + (48 + n % 10 - 48)
          = v * (10 ^ k * 10) + (10 * (n / 10) + n % 10) := by ring_nf; omega
        _ = v * 10 ^ (k + 1) + n := by rw [Nat.div_add_mod, pow_succ]

/-- The decimal writer renders exactly its argument. -/
lemma udecChars_decode (n : Nat) : decodeDec (udecChars n) = n := by
  rcases Nat.eq_zero_or_pos n with h | h
  · subst h; decide
  · obtain ⟨k, hk, hf⟩ := udecAux_foldl (n + 1) n [] h (lt_ten_pow_succ n)
    have hv := hf 0
    simpa [decodeDec, udecChars] using hv

/-- Projecting a per-character transmission trace recovers the characters. -/
lemma pickErr_comp : (pickErr ∘ Op.usartPutc ERROR_USART) = some := by
  funext c
  simp [pickErr]

/-- Serial projection of a string transmission. -/
lemma filterMap_putstr (s : String) :
    (usart_putstr ERROR_USART s).filterMap pickErr = s.data := by
  rw [usart_putstr, List.filterMap_map, pickErr_comp, List.filterMap_some]

/-- Serial projection of a decimal transmission. -/
lemma filterMap_putudec (n : Nat) :
    (usart_putudec ERROR_USART n).filterMap pickErr = udecChars n := by
  rw [usart_putudec, List.filterMap_map, pickErr_comp, List.filterMap_some]

/-- Serial projection of a single-character transmission. -/
lemma filterMap_putc (c : Char) :
    (usart_putc ERROR_USART c).filterMap pickErr = [c] := by
  simp [usart_putc, pickErr]

/-- Serial projection of the channel-enabling trace: it transmits nothing. -/
lemma filterMap_enable : _enable_error_usart.filterMap pickErr = [] := rfl

/-- Serial projection of the quiescing trace: it transmits nothing. -/
lemma filterMap_error : List.filterMap pickErr __error = [] := rfl

/-- String append acts on the underlying character lists. -/
lemma string_data_append (s t : String) : (s ++ t).data = s.data ++ t.data := rfl

/-- Exact shape of the serial output of the assertion-failure path. -/
lemma serialOut_fail (f : String) (l : Nat) (e : String) :
    serialOut (_fail f l e) =
      "ERROR: FAILED ASSERT(" ++ e ++ "): " ++ f ++ ": " ++
        String.mk (udecChars l) ++ "\n\r" := by
  apply String.ext
  simp only [serialOut, _fail, List.filterMap_append, filterMap_putstr, filterMap_putudec,
    filterMap_putc, filterMap_enable, filterMap_error, string_data_append,
    List.nil_append, List.append_nil, List.append_assoc]
  rfl

/-- C1: on a failed assertion, `_fail` transmits over the configured serial
channel exactly the message
`"ERROR: FAILED ASSERT(" ++ exp ++ "): " ++ file ++ ": " ++ line ++ "\n\r"`,
where the line is rendered as an unsigned decimal that denotes the line value
and has no leading zero; in particular for file `main.c`, line 42 and
expression `x>0` the message is exactly
`"ERROR: FAILED ASSERT(x>0): main.c: 42\n\r"`. -/
theorem fail_assert_message (file : String) (line : Nat) (exp : String) :
    serialOut (_fail file line exp) =
      "ERROR: FAILED ASSERT(" ++ exp ++ "): " ++ file ++ ": " ++
        String.mk (udecChars line) ++ "\n\r"
    ∧ decodeDec (udecChars line) = line
    ∧ (udecChars (line + 1)).head? ≠ some '0'
    ∧ serialOut (_fail "main.c" 42 "x>0") = "ERROR: FAILED ASSERT(x>0): main.c: 42\n\r" :=
  ⟨serialOut_fail file line exp, udecChars_decode line,
   udecChars_head (line + 1) (by omega), by decide⟩

/-- C5: every invocation of `abort` transmits over the configured serial
channel exactly the message `"ERROR: PROGRAM ABORTED VIA abort()\n\r"`; the
trace of `abort` is a constant, so the output is independent of prior state
or input. -/
theorem abort_message :
    serialOut abort = "ERROR: PROGRAM ABORTED VIA abort()\n\r" := by decide

/-- C10: `__assert_func` ignores its method argument: any two method strings
give the same operation trace, hence the same serial output and the same
effect on every peripheral state. -/
theorem assert_func_ignores_method (file : String) (line : Nat)
    (m1 m2 expression : String) :
    __assert_func file line m1 expression = __assert_func file line m2 expression
    ∧ serialOut (__assert_func file line m1 expression) =
        serialOut (__assert_func file line m2 expression)
    ∧ ∀ s : PeriphState,
        applyOps s (__assert_func file line m1 expression) =
          applyOps s (__assert_func file line m2 expression) :=
  ⟨rfl, rfl, fun _ => rfl⟩

/-- C2: `__error` performs, strictly in this order: disable all interrupt
sources, disable all timers, disable all ADCs, disable all serial
peripherals, re-enable the two reserved USB interrupt lines, re-enable global
interrupts; afterwards, from any prior peripheral state, exactly the two
reserved lines are enabled and all timer, ADC and serial peripherals are
disabled. -/
theorem error_quiesce_order_and_state (s : PeriphState) :
    __error =
      [Op.nvicIrqDisableAll, Op.timerDisableAll, Op.adcDisableAll, Op.usartDisableAll,
       Op.nvicIrqEnable NVIC_USB_HP_CAN_TX, Op.nvicIrqEnable NVIC_USB_LP_CAN_RX0,
       Op.nvicGlobalIrqEnable]
    ∧ (∀ l : Nat, ((applyOps s __error).irqEnabled l = true ↔
        l = NVIC_USB_HP_CAN_TX ∨ l = NVIC_USB_LP_CAN_RX0))
    ∧ (∀ t : Nat, (applyOps s __error).timerEnabled t = false)
    ∧ (∀ a : Nat, (applyOps s __error).adcEnabled a = false)
    ∧ (∀ u : Nat, (applyOps s __error).usartEnabled u = false)
    ∧ (applyOps s __error).globalIrq = true := by
  refine ⟨rfl, fun l => ?_, fun t => rfl, fun a => rfl, fun u => rfl, rfl⟩
  show (if l = NVIC_USB_LP_CAN_RX0 then true
        else if l = NVIC_USB_HP_CAN_TX then true else false) = true ↔
    l = NVIC_USB_HP_CAN_TX ∨ l = NVIC_USB_LP_CAN_RX0
  by_cases h1 : l = NVIC_USB_LP_CAN_RX0 <;> by_cases h2 : l = NVIC_USB_HP_CAN_TX <;>
    simp [h1, h2]

/-- C8: the quiescing sequence of `__error` is idempotent: running it twice
from any peripheral state yields the same state as running it once. -/
theorem error_quiesce_idempotent (s : PeriphState) :
    applyOps (applyOps s __error) __error = applyOps s __error := rfl

/-- C9: `_enable_error_usart` is idempotent on every peripheral state, and
each call sets the transmit pin to alternate-function push-pull output mode,
initialises the configured serial channel, and applies the build-time clock
source and baud rate. -/
theorem enable_error_usart_idempotent (s : PeriphState) :
    applyOps (applyOps s _enable_error_usart) _enable_error_usart =
      applyOps s _enable_error_usart
    ∧ (applyOps s _enable_error_usart).gpioMode ERROR_TX_PORT ERROR_TX_PIN =
        GPIO_AF_OUTPUT_PP
    ∧ (applyOps s _enable_error_usart).usartInited ERROR_USART = true
    ∧ (applyOps s _enable_error_usart).usartBaud ERROR_USART =
        some (ERROR_USART_CLK_SPEED, ERROR_USART_BAUD) := by
  refine ⟨?_, by simp [applyOps, applyOp, _enable_error_usart],
    by simp [applyOps, applyOp, _enable_error_usart],
    by simp [applyOps, applyOp, _enable_error_usart]⟩
  refine PeriphState.ext rfl rfl rfl rfl ?_ ?_ ?_ ?_ rfl
  · funext c
    dsimp only [applyOps, applyOp, _enable_error_usart, List.foldl]
    split_ifs <;> rfl
  · funext c
    dsimp only [applyOps, applyOp, _enable_error_usart, List.foldl]
    split_ifs <;> rfl
  · funext c
    dsimp only [applyOps, applyOp, _enable_error_usart, List.foldl]
    split_ifs <;> rfl
  · funext p q
    dsimp only [applyOps, applyOp, _enable_error_usart, List.foldl]
    split_ifs <;> rfl

/-- Positions of character writes in a concatenated trace come strictly
before positions of the serial-disable step, provided the first part contains
no serial-disable and the second part contains no character write. -/
lemma putc_before_disable (t1 t2 : List Op)
    (h1 : ∀ op ∈ t1, op ≠ Op.usartDisableAll)
    (h2 : ∀ op ∈ t2, ∀ ch c, op ≠ Op.usartPutc ch c) :
    ∀ (i j ch : Nat) (c : Char), (t1 ++ t2)[i]? = some (Op.usartPutc ch c) →
      (t1 ++ t2)[j]? = some Op.usartDisableAll → i < j := by
  intro i j ch c hi hj
  have hilt : i < t1.length := by
    by_contra hcon
    push_neg at hcon
    rw [List.getElem?_append_right hcon] at hi
    exact h2 _ (List.getElem?_mem hi) ch c rfl
  have hjge : t1.length ≤ j := by
    by_contra hcon
    push_neg at hcon
    rw [List.getElem?_append_left hcon] at hj
    exact h1 _ (List.getElem?_mem hj) rfl
  omega

/-- String transmissions never contain the serial-disable operation. -/
lemma putstr_no_disable (ch : Nat) (s : String) :
    ∀ op ∈ usart_putstr ch s, op ≠ Op.usartDisableAll := by
  intro op hop
  simp only [usart_putstr, List.mem_map] at hop
  obtain ⟨c, _, rfl⟩ := hop
  simp

/-- Decimal transmissions never contain the serial-disable operation. -/
lemma putudec_no_disable (ch : Nat) (n : Nat) :
    ∀ op ∈ usart_putudec ch n, op ≠ Op.usartDisableAll := by
  intro op hop
  simp only [usart_putudec, List.mem_map] at hop
  obtain ⟨c, _, rfl⟩ := hop
  simp

/-- The quiescing trace contains no character write. -/
lemma error_no_putc : ∀ op ∈ __error, ∀ ch c, op ≠ Op.usartPutc ch c := by
  intro op hop ch c
  simp only [__error, List.mem_cons, List.not_mem_nil, or_false] at hop
  rcases hop with rfl | rfl | rfl | rfl | rfl | rfl | rfl <;> simp

/-- The reporting part of `_fail`, before quiescing. -/
lemma fail_report_no_disable (f : String) (l : Nat) (e : String) :
    ∀ op ∈ (_enable_error_usart ++
      usart_putstr ERROR_USART "ERROR: FAILED ASSERT(" ++
      usart_putstr ERROR_USART e ++
      usart_putstr ERROR_USART "): " ++
      usart_putstr ERROR_USART f ++
      usart_putstr ERROR_USART ": " ++
      usart_putudec ERROR_USART l ++
      usart_putc ERROR_USART '\n' ++
      usart_putc ERROR_USART '\r'), op ≠ Op.usartDisableAll := by
  intro op hop
  simp only [List.mem_append] at hop
  rcases hop with ((((((((hop | hop) | hop) | hop) | hop) | hop) | hop) | hop) | hop)
  · simp only [_enable_error_usart, List.mem_cons, List.not_mem_nil, or_false] at hop
    rcases hop with rfl | rfl | rfl <;> simp
  · exact putstr_no_disable _ _ op hop
  · exact putstr_no_disable _ _ op hop
  · exact putstr_no_disable _ _ op hop
  · exact putstr_no_disable _ _ op hop
  · exact putstr_no_disable _ _ op hop
  · exact putudec_no_disable _ _ op hop
  · simp only [usart_putc, List.mem_cons, List.not_mem_nil, or_false] at hop
    subst hop; simp
  · simp only [usart_putc, List.mem_cons, List.not_mem_nil, or_false] at hop
    subst hop; simp

/-- The reporting part of `abort`, before quiescing. -/
lemma abort_report_no_disable :
    ∀ op ∈ (_enable_error_usart ++
      usart_putstr ERROR_USART "ERROR: PROGRAM ABORTED VIA abort()\n\r"),
      op ≠ Op.usartDisableAll := by
  intro op hop
  simp only [List.mem_append] at hop
  rcases hop with hop | hop
  · simp only [_enable_error_usart, List.mem_cons, List.not_mem_nil, or_false] at hop
    rcases hop with rfl | rfl | rfl <;> simp
  · exact putstr_no_disable _ _ op hop

/-- C7: for both fault entry points, every character write on the error
serial channel occurs strictly before the disable-all-serial step of the
quiescing sequence in the trace of peripheral operations. -/
theorem report_before_serial_disable :
    (∀ (f : String) (l : Nat) (e : String) (i j ch : Nat) (c : Char),
      (_fail f l e)[i]? = some (Op.usartPutc ch c) →
      (_fail f l e)[j]? = some Op.usartDisableAll → i < j)
    ∧ (∀ (i j ch : Nat) (c : Char),
      abort[i]? = some (Op.usartPutc ch c) →
      abort[j]? = some Op.usartDisableAll → i < j) := by
  constructor
  · intro f l e
    exact putc_before_disable _ __error (fail_report_no_disable f l e) error_no_putc
  · exact putc_before_disable _ __error abort_report_no_disable error_no_putc

/-- Witness for C7 at a concrete file, line, expression and concrete trace
positions: position 3 holds the first character write and position 37 (for
`_fail "a" 1 "b"`), respectively 42 (for `abort`), holds the serial-disable
step. -/
theorem report_before_serial_disable_witness : 3 < 37 ∧ 3 < 42 :=
  ⟨report_before_serial_disable.1 "a" 1 "b" 3 37 ERROR_USART 'E'
    (by decide) (by decide),
   report_before_serial_disable.2 3 42 ERROR_USART 'E'
    (by decide) (by decide)⟩

/-- One iteration unfolds on the left of the iteration count. -/
lemma throbIter_succ (n : Nat) : throbIter (n + 1) = throbStep (throbIter n) :=
  Function.iterate_succ_apply' throbStep n throbInit

/-- Iteration counts compose. -/
lemma throbIter_add (m n : Nat) : throbIter (m + n) = throbStep^[m] (throbIter n) :=
  Function.iterate_add_apply throbStep m n throbInit

/-- The loop invariant holds initially. -/
lemma throbInv_init : ThrobInv throbInit :=
  ⟨by norm_num [throbInit, TOP_CNT], by norm_num [throbInit, TOP_CNT], Or.inl rfl⟩

/-- The loop invariant is preserved by one iteration of the fade loop. -/
lemma throbInv_step (s : ThrobState) (h : ThrobInv s) : ThrobInv (throbStep s) := by
  obtain ⟨sl, cc, i⟩ := s
  obtain ⟨h1, h2, h3⟩ := h
  simp only [ThrobInv, TOP_CNT] at h1 h2 h3 ⊢
  unfold throbStep TOP_CNT wrapAdd
  dsimp only at h3 ⊢
  rcases h3 with h3 | h3 <;> subst h3 <;> refine ⟨?_, ?_, ?_⟩ <;> split_ifs <;> omega

/-- The loop invariant holds in every reachable state of the fade loop. -/
lemma throbInv_iter (n : Nat) : ThrobInv (throbIter n) := by
  induction n with
  | zero => exact throbInv_init
  | succ n ih => rw [throbIter_succ]; exact throbInv_step _ ih

/-- C3: in every state the fade loop reaches from its initial state, the
amplitude `CC` stays within `[0, TOP_CNT]` with `TOP_CNT = 0x200 = 512`, and
the next iteration changes the slope only when the amplitude is 0 or the
ceiling. -/
theorem throb_amplitude_invariant (n : Nat) :
    (throbIter n).cc ≤ TOP_CNT
    ∧ ((throbStep (throbIter n)).slope = (throbIter n).slope
       ∨ (throbIter n).cc = 0 ∨ (throbIter n).cc = TOP_CNT) := by
  refine ⟨(throbInv_iter n).1, ?_⟩
  by_cases h1 : (throbIter n).cc = TOP_CNT
  · exact Or.inr (Or.inr h1)
  by_cases h2 : (throbIter n).cc = 0
  · exact Or.inr (Or.inl h2)
  left
  simp [throbStep, h1, h2]

/-- Each iteration of the fade loop changes the sub-counter. -/
lemma throbStep_i_ne (s : ThrobState) (h : s.i ≤ TOP_CNT) : (throbStep s).i ≠ s.i := by
  obtain ⟨sl, cc, i⟩ := s
  simp only [TOP_CNT] at h
  unfold throbStep TOP_CNT
  dsimp only at h ⊢
  split_ifs <;> omega

/-- C4: `throb` never returns: in the error-LED build the `while (1)` guard
never becomes false and the loop state changes at every iteration (it is not
stuck), and in the build without an LED the empty `while (1)` loop never
makes its guard false either. -/
theorem throb_never_returns :
    ¬ loopHalts throbGuard throbStep throbInit
    ∧ (∀ n : Nat, throbIter (n + 1) ≠ throbIter n)
    ∧ ∀ s0 : throbNoLedState, ¬ loopHalts throbNoLedGuard throbNoLedStep s0 := by
  refine ⟨?_, ?_, ?_⟩
  · rintro ⟨n, hn⟩
    simp [throbGuard] at hn
  · intro n h
    rw [throbIter_succ] at h
    exact throbStep_i_ne (throbIter n) (throbInv_iter n).2.1 (congrArg ThrobState.i h)
  · rintro s0 ⟨n, hn⟩
    simp [throbNoLedGuard] at hn

/-- While the sub-counter is below the ceiling, iterations only advance the
sub-counter (rising-slope version). -/
lemma risePlain (k : Nat) (hk : k ≤ 511) :
    ∀ (j i0 : Nat), 1 ≤ i0 → i0 + j ≤ 512 →
      throbStep^[j] (⟨1, k, i0⟩ : ThrobState) = ⟨1, k, i0 + j⟩ := by
  intro j
  induction j with
  | zero => intro i0 _ _; simp
  | succ j ih =>
    intro i0 h1 h2
    rw [Function.iterate_succ_apply]
    have hstep : throbStep (⟨1, k, i0⟩ : ThrobState) = ⟨1, k, i0 + 1⟩ := by
      unfold throbStep TOP_CNT wrapAdd
      ext <;> dsimp only <;> split_ifs <;> omega
    rw [hstep]
    have h3 : i0 + (j + 1) = (i0 + 1) + j := by omega
    rw [h3]
    exact ih (i0 + 1) (by omega) (by omega)

/-- While the sub-counter is below the ceiling, iterations only advance the
sub-counter (falling-slope version). -/
lemma fallPlain (k : Nat) (hk1 : 1 ≤ k) (hk2 : k ≤ 512) :
    ∀ (j i0 : Nat), 1 ≤ i0 → i0 + j ≤ 512 →
      throbStep^[j] (⟨-1, k, i0⟩ : ThrobState) = ⟨-1, k, i0 + j⟩ := by
  intro j
  induction j with
  | zero => intro i0 _ _; simp
  | succ j ih =>
    intro i0 h1 h2
    rw [Function.iterate_succ_apply]
    have hstep : throbStep (⟨-1, k, i0⟩ : ThrobState) = ⟨-1, k, i0 + 1⟩ := by
      unfold throbStep TOP_CNT wrapAdd
      ext <;> dsimp only <;> split_ifs <;> omega
    rw [hstep]
    have h3 : i0 + (j + 1) = (i0 + 1) + j := by omega
    rw [h3]
    exact ih (i0 + 1) (by omega) (by omega)

/-- A full block of 512 iterations advances the amplitude by one while
rising. -/
lemma riseBlock (k : Nat) (hk : k ≤ 511) :
    throbStep^[512] (⟨1, k, 1⟩ : ThrobState) = ⟨1, k + 1, 1⟩ := by
  have h511 := risePlain k hk 511 1 (by omega) (by omega)
  have hsplit : throbStep^[512] (⟨1, k, 1⟩ : ThrobState) =
      throbStep^[1] (throbStep^[511] (⟨1, k, 1⟩ : ThrobState)) := by
    rw [← Function.iterate_add_apply]
  rw [hsplit, h511, Function.iterate_one]
  unfold throbStep TOP_CNT wrapAdd
  ext <;> dsimp only <;> split_ifs <;> omega

/-- A full block of 512 iterations lowers the amplitude by one while
falling. -/
lemma fallBlock (k : Nat) (hk1 : 1 ≤ k) (hk2 : k ≤ 512) :
    throbStep^[512] (⟨-1, k, 1⟩ : ThrobState) = ⟨-1, k - 1, 1⟩ := by
  have h511 := fallPlain k hk1 hk2 511 1 (by omega) (by omega)
  have hsplit : throbStep^[512] (⟨-1, k, 1⟩ : ThrobState) =
      throbStep^[1] (throbStep^[511] (⟨-1, k, 1⟩ : ThrobState)) := by
    rw [← Function.iterate_add_apply]
  rw [hsplit, h511, Function.iterate_one]
  unfold throbStep TOP_CNT wrapAdd
  ext <;> dsimp only <;> split_ifs <;> omega

/-- Rising from amplitude `k`, `d` blocks of 512 iterations reach `k + d`. -/
lemma riseMany (d : Nat) : ∀ k : Nat, k + d ≤ 512 →
    throbStep^[512 * d] (⟨1, k, 1⟩ : ThrobState) = ⟨1, k + d, 1⟩ := by
  induction d with
  | zero => intro k _; simp
  | succ d ih =>
    intro k h
    have he : 512 * (d + 1) = 512 * d + 512 := by ring
    rw [he, Function.iterate_add_apply, riseBlock k (by omega), ih (k + 1) (by omega)]
    ext <;> dsimp only <;> omega

/-- Falling from amplitude `k`, `d` blocks of 512 iterations reach `k - d`. -/
lemma fallMany (d : Nat) : ∀ k : Nat, d ≤ k → k ≤ 512 →
    throbStep^[512 * d] (⟨-1, k, 1⟩ : ThrobState) = ⟨-1, k - d, 1⟩ := by
  induction d with
  | zero => intro k _ _; simp
  | succ d ih =>
    intro k h1 h2
    have he : 512 * (d + 1) = 512 * d + 512 := by ring
    rw [he, Function.iterate_add_apply, fallBlock k (by omega) h2,
      ih (k - 1) (by omega) (by omega)]
    ext <;> dsimp only <;> omega

/-- The block in which the amplitude peaks: the slope turns negative and the
amplitude starts falling. -/
lemma topBlock : throbStep^[512] (⟨1, 512, 1⟩ : ThrobState) = ⟨-1, 511, 1⟩ := by
  have e1 : throbStep (⟨1, 512, 1⟩ : ThrobState) = ⟨-1, 512, 2⟩ := by decide
  have e2 : throbStep^[510] (⟨-1, 512, 2⟩ : ThrobState) = ⟨-1, 512, 512⟩ := by
    rw [fallPlain 512 (by omega) (by omega) 510 2 (by omega) (by omega)]
  have e3 : throbStep (⟨-1, 512, 512⟩ : ThrobState) = ⟨-1, 511, 1⟩ := by decide
  have hsplit : throbStep^[512] (⟨1, 512, 1⟩ : ThrobState) =
      throbStep^[1] (throbStep^[510] (throbStep^[1] (⟨1, 512, 1⟩ : ThrobState))) := by
    rw [← Function.iterate_add_apply, ← Function.iterate_add_apply]
  rw [hsplit, Function.iterate_one, e1, e2, e3]

/-- The block in which the amplitude bottoms out: the slope turns positive
and the amplitude starts rising again. -/
lemma bottomBlock : throbStep^[512] (⟨-1, 0, 1⟩ : ThrobState) = ⟨1, 1, 1⟩ := by
  have e1 : throbStep (⟨-1, 0, 1⟩ : ThrobState) = ⟨1, 0, 2⟩ := by decide
  have e2 : throbStep^[510] (⟨1, 0, 2⟩ : ThrobState) = ⟨1, 0, 512⟩ := by
    rw [risePlain 0 (by omega) 510 2 (by omega) (by omega)]
  have e3 : throbStep (⟨1, 0, 512⟩ : ThrobState) = ⟨1, 1, 1⟩ := by decide
  have hsplit : throbStep^[512] (⟨-1, 0, 1⟩ : ThrobState) =
      throbStep^[1] (throbStep^[510] (throbStep^[1] (⟨-1, 0, 1⟩ : ThrobState))) := by
    rw [← Function.iterate_add_apply, ← Function.iterate_add_apply]
  rw [hsplit, Function.iterate_one, e1, e2, e3]

/-- State after the very first iteration. -/
lemma throb_at_1 : throbIter 1 = ⟨1, 0, 1⟩ := by decide

/-- State after completing the rise: 512 × 512 iterations past the first. -/
lemma throb_at_262145 : throbIter 262145 = ⟨1, 512, 1⟩ := by
  have h : (262145 : Nat) = 262144 + 1 := by norm_num
  rw [h, throbIter_add 262144 1, throb_at_1]
  rw [show (262144 : Nat) = 512 * 512 from by norm_num]
  rw [riseMany 512 0 (by omega)]

/-- One iteration before the rise completes, the amplitude is still 511. -/
lemma throb_at_262144 : throbIter 262144 = ⟨1, 511, 512⟩ := by
  have h1 : throbIter 261633 = ⟨1, 511, 1⟩ := by
    have h : (261633 : Nat) = 261632 + 1 := by norm_num
    rw [h, throbIter_add 261632 1, throb_at_1]
    rw [show (261632 : Nat) = 512 * 511 from by norm_num]
    rw [riseMany 511 0 (by omega)]
  have h : (262144 : Nat) = 511 + 261633 := by norm_num
  rw [h, throbIter_add 511 261633, h1]
  rw [risePlain 511 (by omega) 511 1 (by omega) (by omega)]

/-- State at the start of the second full amplitude block. -/
lemma throb_at_513 : throbIter 513 = ⟨1, 1, 1⟩ := by
  have h : (513 : Nat) = 512 + 1 := by norm_num
  rw [h, throbIter_add 512 1, throb_at_1]
  rw [riseBlock 0 (by omega)]

/-- State one block past the peak: amplitude 511, falling. -/
lemma throb_at_262657 : throbIter 262657 = ⟨-1, 511, 1⟩ := by
  have h : (262657 : Nat) = 512 + 262145 := by norm_num
  rw [h, throbIter_add 512 262145, throb_at_262145]
  exact topBlock

/-- State after the full fall: the amplitude is back at 0 exactly
2 × 512 × 512 iterations past the first. -/
lemma throb_at_524289 : throbIter 524289 = ⟨-1, 0, 1⟩ := by
  have h : (524289 : Nat) = 261632 + 262657 := by norm_num
  rw [h, throbIter_add 261632 262657, throb_at_262657]
  rw [show (261632 : Nat) = 512 * 511 from by norm_num]
  rw [fallMany 511 511 (by omega) (by omega)]

/-- One iteration before the fall completes, the amplitude is still 1. -/
lemma throb_at_524288 : throbIter 524288 = ⟨-1, 1, 512⟩ := by
  have h1 : throbIter 523777 = ⟨-1, 1, 1⟩ := by
    have h : (523777 : Nat) = 261120 + 262657 := by norm_num
    rw [h, throbIter_add 261120 262657, throb_at_262657]
    rw [show (261120 : Nat) = 512 * 510 from by norm_num]
    rw [fallMany 510 511 (by omega) (by omega)]
  have h : (524288 : Nat) = 511 + 523777 := by norm_num
  rw [h, throbIter_add 511 523777, h1]
  rw [fallPlain 1 (by omega) (by omega) 511 1 (by omega) (by omega)]

/-- The waveform state is periodic with period 2 × 512 × 512 from the start
of the second block. -/
lemma throb_period : throbIter 524801 = throbIter 513 := by
  have h : (524801 : Nat) = 512 + 524289 := by norm_num
  rw [h, throbIter_add 512 524289, throb_at_524289, throb_at_513]
  exact bottomBlock

/-- C6: with ceiling 512, one full rise-then-fall cycle of the fade loop
takes exactly 2 × 512 × 512 = 524288 iterations: starting one iteration in,
with amplitude 0, the amplitude first reaches 512 after exactly 512 × 512
iterations (it is still 511 one iteration earlier) and first returns to 0
after exactly 2 × 512 × 512 iterations (it is still 1 one iteration
earlier), and the whole loop state repeats with that exact period. -/
theorem throb_cycle_length :
    (throbIter 1).cc = 0
    ∧ (throbIter (1 + 512 * 512)).cc = TOP_CNT
    ∧ (throbIter (512 * 512)).cc = TOP_CNT - 1
    ∧ (throbIter (1 + 2 * 512 * 512)).cc = 0
    ∧ (throbIter (2 * 512 * 512)).cc = 1
    ∧ throbIter (513 + 2 * 512 * 512) = throbIter 513 := by
  norm_num [TOP_CNT]
  refine ⟨by rw [throb_at_1], by rw [throb_at_262145], by rw [throb_at_262144],
    by rw [throb_at_524289], by rw [throb_at_524288], by rw [← throb_period]⟩

end OnyxUtil
